import Mathlib

/-!
Verification of the letshare relay server's connection/room/dispatch engine.

The definitions below are a shallow embedding of the Go source:
`WebSocketService` (clients/rooms registries and the Subscribe/Unsubscribe/
Publish/RemoveClient operations), `RoomService.ValidateRoomName`, the
`model` package's message shapes, and the `WebSocketHandler` session layer
(processMessage / handleSubscribe / handleUnsubscribe / handlePublish and
the read loop of handleMessages).  The repository carries two revisions of
`WebSocketService`; the embedding follows the later one, whose rooms store
client ids (`Room.ClientIDs`) rather than client pointers.  Timestamps
(`CreatedAt`, `UpdatedAt`, `LastPing`) are diagnostics over real time and
are not modelled.

Go maps used as sets become `Finset String`; the maps keyed by client id or
room name become functions `String → Finset String` updated with
`Function.update` (keys outside the corresponding domain Finset carry the
empty set).  Go map iteration order is unspecified, so folds over a map
iterate over `sortedKeys`, one fixed enumeration; all proved
properties are order independent.  A Go `error` return becomes an
`Option String` carrying the exact message; a run-time panic that escapes
to the per-connection recover is modelled as `Except.error ()`.
-/

/-- A JSON value, as decoded by encoding/json.  `null` is distinct from an
absent field (`Option.none` at the use sites). -/
inductive Json where
  | null
  | bool (b : Bool)
  | num (n : Int)
  | str (s : String)
  | arr (elems : List Json)
  | obj (fields : List (String × Json))


/-- An inbound frame, mirroring `model.WebSocketMessage` as the handler reads
it: absent `channel`/`event` decode to the empty string (Go zero value) and an
absent `data` field to `none`, while a present JSON `null` data field decodes
to `some Json.null` (json.RawMessage stores the literal bytes `null`). -/
structure Frame where
  type : String
  channel : String
  event : String
  data : Option Json


/-- An outbound frame, restricted to the shapes the handler actually emits. -/
inductive OutMsg where
  | errorMsg (code : Nat) (msg : String)
  | subscribed (room event : String)
  | unsubscribed (room event : String)
  | message (room event : String) (data : Json)


/-- The registry state of `WebSocketService`, flattened: `clients` is the set
of registered connection ids; `userID`, `crooms` (the per-client `Rooms` map)
and `events` (the per-client `Events` map) carry each client's fields;
`rooms` is the set of existing room names and `members` each room's
`ClientIDs` set. -/
structure SState where
  clients : Finset String
  userID : String → String
  crooms : String → Finset String
  events : String → Finset String
  rooms : Finset String
  members : String → Finset String

/-- The empty service state produced by `NewWebSocketService`. -/
def initState : SState :=
  { clients := ∅
    userID := fun _ => ""
    crooms := fun _ => ∅
    events := fun _ => ∅
    rooms := ∅
    members := fun _ => ∅ }

/-- Whether a character is matched by Go's `\p{Han}` (the Unicode Han script
ranges used by `regexp` via `unicode.Han`). -/
def isHanChar (c : Char) : Bool :=
  let n := c.toNat
  (0x2E80 ≤ n && n ≤ 0x2E99) || (0x2E9B ≤ n && n ≤ 0x2EF3) ||
  (0x2F00 ≤ n && n ≤ 0x2FD5) || n == 0x3005 || n == 0x3007 ||
  (0x3021 ≤ n && n ≤ 0x3029) || (0x3038 ≤ n && n ≤ 0x303B) ||
  (0x3400 ≤ n && n ≤ 0x4DBF) || (0x4E00 ≤ n && n ≤ 0x9FFF) ||
  (0xF900 ≤ n && n ≤ 0xFA6D) || (0xFA70 ≤ n && n ≤ 0xFAD9) ||
  (0x20000 ≤ n && n ≤ 0x2A6DF) || (0x2A700 ≤ n && n ≤ 0x2B739) ||
  (0x2B740 ≤ n && n ≤ 0x2B81D) || (0x2B820 ≤ n && n ≤ 0x2CEA1) ||
  (0x2CEB0 ≤ n && n ≤ 0x2EBE0) || (0x2F800 ≤ n && n ≤ 0x2FA1D) ||
  (0x30000 ≤ n && n ≤ 0x3134A) || (0x31350 ≤ n && n ≤ 0x323AF)

/-- Whether a character is in the room-name character class of the pattern
`^[\p{Han}a-zA-Z0-9 _-]+$` from `NewRoomService`. -/
def isAllowedRoomChar (c : Char) : Bool :=
  isHanChar c || (('a' ≤ c && c ≤ 'z') || ('A' ≤ c && c ≤ 'Z') ||
    ('0' ≤ c && c ≤ '9') || c == ' ' || c == '_' || c == '-')

/-- `RoomService.ValidateRoomName`: length (in code points, as
`utf8.RuneCountInString`) must be between 2 and 12, then every character must
match the name pattern; returns the validity flag and the reason string. -/
def ValidateRoomName (name : String) : Bool × String :=
  if name.length < 2 then (false, "房间名太短啦，至少两个字符")
  else if name.length > 12 then (false, "房间名最多 12 个字符")
  else if name.toList.all isAllowedRoomChar then (true, "")
  else (false, "房间名只能包含中文、字母、数字、空格、下划线和中划线")

/-- `WebSocketService.AddClient` registering the client built by
`model.NewClient` (fresh empty `Rooms` and `Events` maps). -/
def AddClient (s : SState) (id uid : String) : SState :=
  { s with
    clients := insert id s.clients
    userID := Function.update s.userID id uid
    crooms := Function.update s.crooms id ∅
    events := Function.update s.events id ∅ }

/-- The formatted room-full error message of `SubscribeToRoom`. -/
def roomFullMsg (maxUsers : Nat) : String :=
  "房间已满，最多支持" ++ toString maxUsers ++ "个用户"

/-- `WebSocketService.SubscribeToRoom`: validate the name, look up the
client, create the room on first reference (`model.NewRoom`, an empty
`ClientIDs` set), reject when the room is at capacity and the client id is
not already a member, otherwise record membership on both sides and add the
requested event (defaulting to "signal:all") to the client's `Events` set.
Returns the state after the call together with the error, since the room
creation persists even when the capacity check then fails. -/
def SubscribeToRoom (maxUsers : Nat) (s : SState)
    (clientID roomName event : String) : SState × Option String :=
  if (ValidateRoomName roomName).1 = false then (s, some (ValidateRoomName roomName).2)
  else if clientID ∉ s.clients then (s, some "客户端不存在")
  else
    let s1 := if roomName ∈ s.rooms then s
      else { s with
              rooms := insert roomName s.rooms
              members := Function.update s.members roomName ∅ }
    let mem := s1.members roomName
    if maxUsers ≤ mem.card ∧ clientID ∉ mem then (s1, some (roomFullMsg maxUsers))
    else
      ({ s1 with
          members := Function.update s1.members roomName (insert clientID mem)
          crooms := Function.update s1.crooms clientID (insert roomName (s1.crooms clientID))
          events := Function.update s1.events clientID
            (if event ≠ "" then insert event (s1.events clientID)
             else insert "signal:all" (s1.events clientID)) }, none)

/-- `WebSocketService.removeClientFromRoom`: if the room exists, delete the
client id from its `ClientIDs`; if the client is still registered, also
remove the room from the client's `Rooms` and delete every event other than
"signal:all" from its `Events`; finally delete the room when its member set
has become empty. -/
def removeClientFromRoom (s : SState) (clientID roomName : String) : SState :=
  if roomName ∉ s.rooms then s
  else
    let mem := (s.members roomName).erase clientID
    let s1 := { s with members := Function.update s.members roomName mem }
    let s2 := if clientID ∈ s1.clients then
        { s1 with
          crooms := Function.update s1.crooms clientID ((s1.crooms clientID).erase roomName)
          events := Function.update s1.events clientID
            ((s1.events clientID).filter (fun e => e = "signal:all")) }
      else s1
    if mem = ∅ then { s2 with rooms := s2.rooms.erase roomName } else s2

/-- `WebSocketService.UnsubscribeFromRoom`: unknown client is an error; a
specific non-sentinel event deletes only that event subscription; otherwise
the client fully leaves the room via `removeClientFromRoom`. -/
def UnsubscribeFromRoom (s : SState)
    (clientID roomName event : String) : SState × Option String :=
  if clientID ∉ s.clients then (s, some "客户端不存在")
  else if event ≠ "" ∧ event ≠ "signal:all" then
    ({ s with events := Function.update s.events clientID ((s.events clientID).erase event) },
      none)
  else (removeClientFromRoom s clientID roomName, none)

/-- Lexicographic comparison of character lists, by structural recursion. -/
def charListLe : List Char → List Char → Bool
  | [], _ => true
  | _ :: _, [] => false
  | a :: as, b :: bs =>
    if a < b then true
    else if a = b then charListLe as bs
    else false

lemma charListLe_cons (a b : Char) (as bs : List Char) :
    charListLe (a :: as) (b :: bs) = true ↔
      (a < b ∨ (a = b ∧ charListLe as bs = true)) := by
  simp only [charListLe]
  by_cases h1 : a < b <;> by_cases h2 : a = b <;>
    simp [h1, h2, Bool.or_eq_true, Bool.and_eq_true, decide_eq_true_eq]

/-- A total order on strings used to enumerate a finite set of ids in a fixed
order. -/
def strLe (a b : String) : Prop := charListLe a.data b.data = true

instance : DecidableRel strLe := fun a b => by
  unfold strLe
  infer_instance

lemma charListLe_total : ∀ l1 l2, charListLe l1 l2 = true ∨ charListLe l2 l1 = true := by
  intro l1
  induction l1 with
  | nil => intro l2; left; rfl
  | cons a as ih =>
    intro l2
    cases l2 with
    | nil => right; rfl
    | cons b bs =>
      rcases lt_trichotomy a b with h | h | h
      · left; rw [charListLe_cons]; exact Or.inl h
      · rcases ih bs with h2 | h2
        · left; rw [charListLe_cons]; exact Or.inr ⟨h, h2⟩
        · right; rw [charListLe_cons]; exact Or.inr ⟨h.symm, h2⟩
      · right; rw [charListLe_cons]; exact Or.inl h

lemma charListLe_trans : ∀ l1 l2 l3, charListLe l1 l2 = true →
    charListLe l2 l3 = true → charListLe l1 l3 = true := by
  intro l1
  induction l1 with
  | nil => intro l2 l3 _ _; rfl
  | cons a as ih =>
    intro l2 l3 h12 h23
    cases l2 with
    | nil => exact absurd h12 (by simp [charListLe])
    | cons b bs =>
      cases l3 with
      | nil => exact absurd h23 (by simp [charListLe])
      | cons c cs =>
        rw [charListLe_cons] at h12 h23 ⊢
        rcases h12 with h12 | ⟨h12, h12'⟩
        · rcases h23 with h23 | ⟨h23, -⟩
          · exact Or.inl (lt_trans h12 h23)
          · exact Or.inl (h23 ▸ h12)
        · rcases h23 with h23 | ⟨h23, h23'⟩
          · exact Or.inl (h12 ▸ h23)
          · exact Or.inr ⟨h12.trans h23, ih bs cs h12' h23'⟩

lemma charListLe_antisymm : ∀ l1 l2, charListLe l1 l2 = true →
    charListLe l2 l1 = true → l1 = l2 := by
  intro l1
  induction l1 with
  | nil =>
    intro l2 _ h21
    cases l2 with
    | nil => rfl
    | cons b bs => exact absurd h21 (by simp [charListLe])
  | cons a as ih =>
    intro l2 h12 h21
    cases l2 with
    | nil => exact absurd h12 (by simp [charListLe])
    | cons b bs =>
      rw [charListLe_cons] at h12 h21
      rcases h12 with h12 | ⟨h12, h12'⟩
      · rcases h21 with h21 | ⟨h21, -⟩
        · exact absurd h21 (lt_asymm h12)
        · exact absurd (h21 ▸ h12) (lt_irrefl b)
      · rcases h21 with h21 | ⟨-, h21'⟩
        · exact absurd (h12 ▸ h21) (lt_irrefl b)
        · rw [h12, ih bs h12' h21']

instance : IsTotal String strLe := ⟨fun a b => charListLe_total a.data b.data⟩

instance : IsTrans String strLe :=
  ⟨fun a b c => charListLe_trans a.data b.data c.data⟩

instance : IsAntisymm String strLe :=
  ⟨fun a b h1 h2 => String.ext (charListLe_antisymm a.data b.data h1 h2)⟩

/-- A fixed enumeration of a finite set of strings, standing in for Go's
unspecified map iteration order. -/
def sortedKeys (s : Finset String) : List String :=
  Quot.liftOn s.val (List.insertionSort strLe) (fun l1 l2 h =>
    List.eq_of_perm_of_sorted
      ((List.perm_insertionSort _ l1).trans
        ((Quotient.exact (Quot.sound h)).trans (List.perm_insertionSort _ l2).symm))
      (List.sorted_insertionSort _ l1) (List.sorted_insertionSort _ l2))

lemma mem_sortedKeys {a : String} {s : Finset String} :
    a ∈ sortedKeys s ↔ a ∈ s := by
  cases s with
  | mk val nodup =>
    induction val using Quot.inductionOn with
    | h l =>
      simp [sortedKeys]

/-- The event-filtering check of `PublishToRoom`: an empty or sentinel event
reaches only subscribers of "signal:all"; a concrete event reaches
subscribers of that event or of "signal:all". -/
def shouldReceive (evs : Finset String) (event : String) : Bool :=
  if event = "" ∨ event = "signal:all" then decide ("signal:all" ∈ evs)
  else decide (event ∈ evs) || decide ("signal:all" ∈ evs)

/-- One iteration of the broadcast loop of `PublishToRoom`: skip the sender,
repair stale membership when the member id is no longer registered, and
otherwise deliver when the event filter passes. -/
def publishStep (clientID roomName event : String)
    (acc : SState × List String) (d : String) : SState × List String :=
  if d = clientID then acc
  else if d ∉ acc.1.clients then (removeClientFromRoom acc.1 d roomName, acc.2)
  else if shouldReceive (acc.1.events d) event then (acc.1, acc.2 ++ [d]) else acc

/-- `WebSocketService.PublishToRoom`: unknown client, missing membership of
the sender, and missing room are errors; otherwise iterate over the room's
member ids (in a fixed canonical order standing in for Go's unspecified map
order) and collect the ids actually delivered to. -/
def PublishToRoom (s : SState)
    (clientID roomName event : String) : SState × List String × Option String :=
  if clientID ∉ s.clients then (s, [], some "客户端不存在")
  else if roomName ∉ s.crooms clientID then
    (s, [], some ("客户端未订阅房间: " ++ roomName))
  else if roomName ∉ s.rooms then (s, [], some ("房间不存在: " ++ roomName))
  else
    let p := (sortedKeys (s.members roomName)).foldl
      (publishStep clientID roomName event) (s, [])
    (p.1, p.2, none)

/-- `WebSocketService.cleanupClientResources`: close the connection
(transport effect, no registry state), snapshot the client's room set, remove
the client from each of those rooms, then nil out the client object's own
`Rooms` and `Events`. -/
def cleanupClientResources (s : SState) (clientID : String) : SState :=
  let l := sortedKeys (s.crooms clientID)
  let s2 := l.foldl (fun st r => removeClientFromRoom st clientID r) s
  { s2 with
    crooms := Function.update s2.crooms clientID ∅
    events := Function.update s2.events clientID ∅ }

/-- `WebSocketService.RemoveClient`: a no-op for an unknown id; otherwise the
id is deleted from the `clients` registry first and the remaining resources
are cleaned up afterwards. -/
def RemoveClient (s : SState) (clientID : String) : SState :=
  if clientID ∈ s.clients then
    cleanupClientResources { s with clients := s.clients.erase clientID } clientID
  else s

/-- The states reached after each successive room removal inside
`cleanupClientResources`. -/
def rcfrStates (clientID : String) : SState → List String → List SState
  | _, [] => []
  | s, r :: rest =>
    let s1 := removeClientFromRoom s clientID r
    s1 :: rcfrStates clientID s1 rest

/-- The sequence of registry states observable while `RemoveClient` runs, in
the order the code mutates them: the initial state, the state right after the
id is deleted from the `clients` map (the connection close that follows
touches no registry state), the state after each room removal of the cleanup
loop, and the final state after the client object's fields are nilled out. -/
def removeClientTrace (s : SState) (clientID : String) : List SState :=
  if clientID ∈ s.clients then
    let s1 := { s with clients := s.clients.erase clientID }
    let l := sortedKeys (s1.crooms clientID)
    let s2 := l.foldl (fun st r => removeClientFromRoom st clientID r) s1
    let s3 := { s2 with
      crooms := Function.update s2.crooms clientID ∅
      events := Function.update s2.events clientID ∅ }
    s :: s1 :: (rcfrStates clientID s1 l ++ [s3])
  else [s]

/-- Lookup of a key in a decoded JSON object, as Go's map indexing. -/
def lookupField (fields : List (String × Json)) (k : String) : Option Json :=
  (fields.find? (fun p => p.1 = k)).map Prod.snd

/-- `WebSocketHandler.handleSubscribe`: require a channel name, call
`SubscribeToRoom`, reply with the error or with a subscribed confirmation. -/
def handleSubscribe (maxUsers : Nat) (s : SState) (c : String)
    (f : Frame) : SState × List (String × OutMsg) :=
  if f.channel = "" then (s, [(c, OutMsg.errorMsg 400 "缺少频道名称")])
  else
    let res := SubscribeToRoom maxUsers s c f.channel f.event
    match res.2 with
    | some emsg => (res.1, [(c, OutMsg.errorMsg 400 emsg)])
    | none => (res.1, [(c, OutMsg.subscribed f.channel f.event)])

/-- `WebSocketHandler.handleUnsubscribe`: require a channel name, default the
event to "signal:all", call `UnsubscribeFromRoom`, reply with the error or
with an unsubscribed confirmation. -/
def handleUnsubscribe (s : SState) (c : String)
    (f : Frame) : SState × List (String × OutMsg) :=
  if f.channel = "" then (s, [(c, OutMsg.errorMsg 400 "缺少频道名称")])
  else
    let event := if f.event = "" then "signal:all" else f.event
    let res := UnsubscribeFromRoom s c f.channel event
    match res.2 with
    | some emsg => (res.1, [(c, OutMsg.errorMsg 400 emsg)])
    | none => (res.1, [(c, OutMsg.unsubscribed f.channel event)])

/-- `WebSocketHandler.handlePublish`: require a channel name, default the
event to "signal:all", reject an absent `data` field; then
`json.Unmarshal(message.Data, &data)` — a JSON object yields its fields, the
JSON literal `null` succeeds yielding a nil map, and any other value is a
format error.  The `from` field is injected with the session's UserID when
absent; on a nil map this assignment is a run-time panic (`Except.error ()`),
caught only by the per-connection recover.  Finally `PublishToRoom` runs and
its error, if any, is sent back; on success each recipient gets the message
frame. -/
def handlePublish (s : SState) (c : String)
    (f : Frame) : Except Unit (SState × List (String × OutMsg)) :=
  if f.channel = "" then .ok (s, [(c, OutMsg.errorMsg 400 "缺少频道名称")])
  else
    let event := if f.event = "" then "signal:all" else f.event
    match f.data with
    | none => .ok (s, [(c, OutMsg.errorMsg 400 "缺少消息数据")])
    | some Json.null => .error ()
    | some (Json.obj fields) =>
      let fields' := if (lookupField fields "from").isSome then fields
        else fields ++ [("from", Json.str (s.userID c))]
      let res := PublishToRoom s c f.channel event
      match res.2.2 with
      | some emsg => .ok (res.1, [(c, OutMsg.errorMsg 400 emsg)])
      | none => .ok (res.1, res.2.1.map
          (fun d => (d, OutMsg.message f.channel event (Json.obj fields'))))
    | some _ => .ok (s, [(c, OutMsg.errorMsg 400 "消息数据格式错误")])

/-- `WebSocketHandler.processMessage`: dispatch on the frame type; an
unrecognized type gets a structured error reply. -/
def processMessage (maxUsers : Nat) (s : SState) (c : String)
    (f : Frame) : Except Unit (SState × List (String × OutMsg)) :=
  if f.type = "subscribe" then .ok (handleSubscribe maxUsers s c f)
  else if f.type = "unsubscribe" then .ok (handleUnsubscribe s c f)
  else if f.type = "publish" then handlePublish s c f
  else .ok (s, [(c, OutMsg.errorMsg 400 ("不支持的消息类型: " ++ f.type))])

/-- One iteration of the read loop of `WebSocketHandler.handleMessages`:
`none` is a frame `conn.ReadJSON` could not decode — the loop breaks, ending
the session with no reply; a decoded frame goes to `processMessage`, and a
panic escaping it is recovered by the session goroutine, which also ends the
session.  The Bool records whether the session keeps reading. -/
def handleInbound (maxUsers : Nat) (s : SState) (c : String) :
    Option Frame → SState × List (String × OutMsg) × Bool
  | none => (s, [], false)
  | some f =>
    match processMessage maxUsers s c f with
    | .ok (s', outs) => (s', outs, true)
    | .error () => (s, [], false)

/-- The read loop over a whole inbound sequence: frames are processed until
one of them ends the session. -/
def runSession (maxUsers : Nat) (c : String) :
    SState → List (Option Frame) → SState × List (String × OutMsg)
  | s, [] => (s, [])
  | s, f :: rest =>
    let r := handleInbound maxUsers s c f
    if r.2.2 then
      let r2 := runSession maxUsers c r.1 rest
      (r2.1, r.2.1 ++ r2.2)
    else (r.1, r.2.1)

/-- The registry invariants of the service, relative to the configured
`maxRoomUsers`: membership ids are registered; vanished rooms carry no
members; each registered client's `Rooms` set mirrors the rooms whose
`ClientIDs` contain it; no room exceeds the capacity; under a positive
capacity no existing room is empty; and every existing room has passed name
validation. -/
structure RegInv (maxUsers : Nat) (s : SState) : Prop where
  mem_sub : ∀ r, s.members r ⊆ s.clients
  dead : ∀ r, r ∉ s.rooms → s.members r = ∅
  consist : ∀ c ∈ s.clients, ∀ r, r ∈ s.crooms c ↔ c ∈ s.members r
  card_le : ∀ r, (s.members r).card ≤ maxUsers
  occupied : 1 ≤ maxUsers → ∀ r ∈ s.rooms, (s.members r).Nonempty
  valid : ∀ r ∈ s.rooms, (ValidateRoomName r).1 = true

/-- The states reachable from the empty service by any sequence of client
registrations (with fresh UUID ids), Join, Leave and Evict operations. -/
inductive Reachable (maxUsers : Nat) : SState → Prop where
  | init : Reachable maxUsers initState
  | add {s c u} : Reachable maxUsers s → c ∉ s.clients →
      Reachable maxUsers (AddClient s c u)
  | join {s c r e} : Reachable maxUsers s →
      Reachable maxUsers (SubscribeToRoom maxUsers s c r e).1
  | leave {s c r e} : Reachable maxUsers s →
      Reachable maxUsers (UnsubscribeFromRoom s c r e).1
  | evict {s c} : Reachable maxUsers s → Reachable maxUsers (RemoveClient s c)

/-- Two registered clients and no rooms. -/
def stateA : SState := AddClient (AddClient initState "c1" "u1") "c2" "u2"

/-- Client c2 has joined room "ab" with no event named (capacity 2). -/
def stateB : SState := (SubscribeToRoom 2 stateA "c2" "ab" "").1

/-- Clients c2 and c1 are both in room "ab"; c1 subscribed to event "evt". -/
def stateC : SState := (SubscribeToRoom 2 stateB "c1" "ab" "evt").1

/-- Client c1 alone fills room "ab" under capacity 1. -/
def stateF : SState := (SubscribeToRoom 1 stateA "c1" "ab" "").1

lemma rcfr_clients (s : SState) (c r : String) :
    (removeClientFromRoom s c r).clients = s.clients := by
  unfold removeClientFromRoom
  split
  · rfl
  · dsimp only
    split <;> split <;> rfl

lemma rcfr_userID (s : SState) (c r : String) :
    (removeClientFromRoom s c r).userID = s.userID := by
  unfold removeClientFromRoom
  split
  · rfl
  · dsimp only
    split <;> split <;> rfl

lemma rcfr_crooms_other (s : SState) (c r c' : String) (h : c' ≠ c) :
    (removeClientFromRoom s c r).crooms c' = s.crooms c' := by
  unfold removeClientFromRoom
  split
  · rfl
  · dsimp only
    split <;> split <;> simp [Function.update_apply, h]

lemma rcfr_events_other (s : SState) (c r c' : String) (h : c' ≠ c) :
    (removeClientFromRoom s c r).events c' = s.events c' := by
  unfold removeClientFromRoom
  split
  · rfl
  · dsimp only
    split <;> split <;> simp [Function.update_apply, h]

lemma rcfr_crooms_unreg (s : SState) (c r : String) (h : c ∉ s.clients) :
    (removeClientFromRoom s c r).crooms = s.crooms := by
  by_cases hr : r ∈ s.rooms
  · by_cases hmem : (s.members r).erase c = ∅ <;>
      simp [removeClientFromRoom, hr, hmem, h]
  · simp [removeClientFromRoom, hr]

lemma rcfr_events_unreg (s : SState) (c r : String) (h : c ∉ s.clients) :
    (removeClientFromRoom s c r).events = s.events := by
  by_cases hr : r ∈ s.rooms
  · by_cases hmem : (s.members r).erase c = ∅ <;>
      simp [removeClientFromRoom, hr, hmem, h]
  · simp [removeClientFromRoom, hr]

lemma rcfr_members_other (s : SState) (c r r' : String) (h : r' ≠ r) :
    (removeClientFromRoom s c r).members r' = s.members r' := by
  by_cases hr : r ∈ s.rooms
  · by_cases hmem : (s.members r).erase c = ∅ <;>
      by_cases hcl : c ∈ s.clients <;>
      simp [removeClientFromRoom, hr, hmem, hcl, Function.update_apply, h]
  · simp [removeClientFromRoom, hr]

lemma rcfr_members_self (s : SState) (c r : String) :
    (removeClientFromRoom s c r).members r =
      if r ∈ s.rooms then (s.members r).erase c else s.members r := by
  by_cases hr : r ∈ s.rooms
  · by_cases hmem : (s.members r).erase c = ∅ <;>
      by_cases hcl : c ∈ s.clients <;>
      simp [removeClientFromRoom, hr, hmem, hcl, Function.update_apply]
  · simp [removeClientFromRoom, hr]

lemma rcfr_rooms_other (s : SState) (c r r' : String) (h : r' ≠ r) :
    (r' ∈ (removeClientFromRoom s c r).rooms ↔ r' ∈ s.rooms) := by
  by_cases hr : r ∈ s.rooms
  · by_cases hmem : (s.members r).erase c = ∅ <;>
      by_cases hcl : c ∈ s.clients <;>
      simp [removeClientFromRoom, hr, hmem, hcl, Finset.mem_erase, h]
  · simp [removeClientFromRoom, hr]

lemma rcfr_rooms_self (s : SState) (c r : String) :
    (r ∈ (removeClientFromRoom s c r).rooms ↔
      r ∈ s.rooms ∧ ((s.members r).erase c).Nonempty) := by
  by_cases hr : r ∈ s.rooms
  · by_cases hmem : (s.members r).erase c = ∅ <;>
      by_cases hcl : c ∈ s.clients <;>
      simp [removeClientFromRoom, hr, hmem, hcl, Finset.mem_erase,
        Finset.nonempty_iff_ne_empty]
  · simp [removeClientFromRoom, hr]

lemma rcfr_crooms_reg (s : SState) (c r : String) (h : c ∈ s.clients) :
    (removeClientFromRoom s c r).crooms c =
      if r ∈ s.rooms then (s.crooms c).erase r else s.crooms c := by
  by_cases hr : r ∈ s.rooms
  · by_cases hmem : (s.members r).erase c = ∅ <;>
      simp [removeClientFromRoom, hr, hmem, h, Function.update_apply]
  · simp [removeClientFromRoom, hr]

lemma rcfr_events_reg (s : SState) (c r : String) (h : c ∈ s.clients) :
    (removeClientFromRoom s c r).events c =
      if r ∈ s.rooms then (s.events c).filter (fun e => e = "signal:all")
      else s.events c := by
  by_cases hr : r ∈ s.rooms
  · by_cases hmem : (s.members r).erase c = ∅ <;>
      simp [removeClientFromRoom, hr, hmem, h, Function.update_apply]
  · simp [removeClientFromRoom, hr]

lemma rcfr_dead (s : SState) (c r : String)
    (hdead : ∀ x, x ∉ s.rooms → s.members x = ∅) :
    ∀ x, x ∉ (removeClientFromRoom s c r).rooms →
      (removeClientFromRoom s c r).members x = ∅ := by
  intro x hx
  by_cases hxr : x = r
  · subst hxr
    rw [rcfr_members_self]
    rw [rcfr_rooms_self] at hx
    by_cases hr : x ∈ s.rooms
    · simp only [hr, if_true]
      simp only [hr, true_and, Finset.nonempty_iff_ne_empty, not_not] at hx
      exact hx
    · simp only [hr, if_false]
      exact hdead x hr
  · rw [rcfr_members_other s c r x hxr]
    rw [rcfr_rooms_other s c r x hxr] at hx
    exact hdead x hx

lemma rcfr_members_self_dead (s : SState) (c r : String)
    (hdead : ∀ x, x ∉ s.rooms → s.members x = ∅) :
    (removeClientFromRoom s c r).members r = (s.members r).erase c := by
  rw [rcfr_members_self]
  by_cases hr : r ∈ s.rooms
  · simp [hr]
  · simp [hr, hdead r hr]

lemma fold_rcfr_spec (c : String) (l : List String) (s : SState)
    (hc : c ∉ s.clients) (hdead : ∀ x, x ∉ s.rooms → s.members x = ∅) :
    (l.foldl (fun st r => removeClientFromRoom st c r) s).clients = s.clients ∧
    (l.foldl (fun st r => removeClientFromRoom st c r) s).userID = s.userID ∧
    (l.foldl (fun st r => removeClientFromRoom st c r) s).crooms = s.crooms ∧
    (l.foldl (fun st r => removeClientFromRoom st c r) s).events = s.events ∧
    (∀ x, (l.foldl (fun st r => removeClientFromRoom st c r) s).members x =
      if x ∈ l then (s.members x).erase c else s.members x) ∧
    (∀ x, x ∈ (l.foldl (fun st r => removeClientFromRoom st c r) s).rooms ↔
      x ∈ s.rooms ∧ (x ∈ l → ((s.members x).erase c).Nonempty)) := by
  induction l generalizing s with
  | nil => simp
  | cons r0 rest ih =>
    have hc1 : c ∉ (removeClientFromRoom s c r0).clients := by
      rw [rcfr_clients]; exact hc
    have hdead1 := rcfr_dead s c r0 hdead
    obtain ⟨h1, h2, h3, h4, h5, h6⟩ := ih (removeClientFromRoom s c r0) hc1 hdead1
    have hfold : (r0 :: rest).foldl (fun st r => removeClientFromRoom st c r) s
        = rest.foldl (fun st r => removeClientFromRoom st c r)
            (removeClientFromRoom s c r0) := rfl
    rw [hfold]
    refine ⟨?_, ?_, ?_, ?_, ?_, ?_⟩
    · rw [h1, rcfr_clients]
    · rw [h2, rcfr_userID]
    · rw [h3, rcfr_crooms_unreg s c r0 hc]
    · rw [h4, rcfr_events_unreg s c r0 hc]
    · intro x
      rw [h5 x]
      by_cases hx0 : x = r0
      · subst hx0
        rw [rcfr_members_self_dead s c x hdead]
        by_cases hxr : x ∈ rest <;> simp [hxr, Finset.erase_idem]
      · rw [rcfr_members_other s c r0 x hx0]
        by_cases hxr : x ∈ rest <;> simp [hxr, hx0]
    · intro x
      rw [h6 x]
      by_cases hx0 : x = r0
      · subst hx0
        rw [rcfr_members_self_dead s c x hdead]
        constructor
        · rintro ⟨hin, -⟩
          rw [rcfr_rooms_self] at hin
          exact ⟨hin.1, fun _ => hin.2⟩
        · rintro ⟨hin, hne⟩
          have hne' := hne (List.mem_cons_self x rest)
          refine ⟨(rcfr_rooms_self s c x).mpr ⟨hin, hne'⟩, fun _ => ?_⟩
          rw [Finset.erase_idem]; exact hne'
      · rw [rcfr_members_other s c r0 x hx0, rcfr_rooms_other s c r0 x hx0]
        simp [List.mem_cons, hx0]

lemma removeClient_spec (s : SState) (c : String) (hc : c ∈ s.clients)
    (hdead : ∀ x, x ∉ s.rooms → s.members x = ∅) :
    (RemoveClient s c).clients = s.clients.erase c ∧
    (RemoveClient s c).userID = s.userID ∧
    (∀ c', c' ≠ c → (RemoveClient s c).crooms c' = s.crooms c' ∧
      (RemoveClient s c).events c' = s.events c') ∧
    (RemoveClient s c).crooms c = ∅ ∧
    (RemoveClient s c).events c = ∅ ∧
    (∀ x, (RemoveClient s c).members x =
      if x ∈ s.crooms c then (s.members x).erase c else s.members x) ∧
    (∀ x, x ∈ (RemoveClient s c).rooms ↔
      x ∈ s.rooms ∧ (x ∈ s.crooms c → ((s.members x).erase c).Nonempty)) := by
  have hrc : RemoveClient s c = cleanupClientResources
      { s with clients := s.clients.erase c } c := by
    unfold RemoveClient
    rw [if_pos hc]
  have hc1 : c ∉ ({ s with clients := s.clients.erase c } : SState).clients := by
    simp [Finset.mem_erase]
  obtain ⟨h1, h2, h3, h4, h5, h6⟩ := fold_rcfr_spec c
    (sortedKeys (({ s with clients := s.clients.erase c } : SState).crooms c))
    { s with clients := s.clients.erase c } hc1 hdead
  rw [hrc]
  unfold cleanupClientResources
  dsimp only
  refine ⟨h1, h2, ?_, ?_, ?_, ?_, ?_⟩
  · intro c' hne
    constructor
    · rw [Function.update_apply, if_neg hne, h3]
    · rw [Function.update_apply, if_neg hne, h4]
  · rw [Function.update_same]
  · rw [Function.update_same]
  · intro x
    rw [h5 x]
    simp [mem_sortedKeys]
  · intro x
    rw [h6 x]
    simp [mem_sortedKeys]

lemma rcfr_rooms_mono (s : SState) (c r x : String)
    (h : x ∈ (removeClientFromRoom s c r).rooms) : x ∈ s.rooms := by
  by_cases hx : x = r
  · subst hx; exact ((rcfr_rooms_self s c x).mp h).1
  · exact (rcfr_rooms_other s c r x hx).mp h

lemma inv_rcfr (m : Nat) (s : SState) (c r : String) (h : RegInv m s) :
    RegInv m (removeClientFromRoom s c r) := by
  constructor
  · intro x d hd
    rw [rcfr_clients]
    by_cases hx : x = r
    · subst hx
      rw [rcfr_members_self] at hd
      by_cases hr : x ∈ s.rooms
      · rw [if_pos hr] at hd
        exact h.mem_sub x (Finset.erase_subset _ _ hd)
      · rw [if_neg hr] at hd
        exact h.mem_sub x hd
    · rw [rcfr_members_other s c r x hx] at hd
      exact h.mem_sub x hd
  · exact rcfr_dead s c r h.dead
  · intro c' hc' x
    rw [rcfr_clients] at hc'
    by_cases hcc : c' = c
    · subst hcc
      rw [rcfr_crooms_reg s c' r hc']
      by_cases hr : r ∈ s.rooms
      · rw [if_pos hr]
        by_cases hx : x = r
        · subst hx
          rw [rcfr_members_self, if_pos hr]
          simp [Finset.mem_erase]
        · rw [rcfr_members_other s c' r x hx, Finset.mem_erase]
          simp only [hx, ne_eq, not_false_iff, true_and]
          exact h.consist c' hc' x
      · rw [if_neg hr]
        by_cases hx : x = r
        · subst hx
          rw [rcfr_members_self, if_neg hr]
          exact h.consist c' hc' x
        · rw [rcfr_members_other s c' r x hx]
          exact h.consist c' hc' x
    · rw [rcfr_crooms_other s c r c' hcc]
      by_cases hx : x = r
      · subst hx
        rw [rcfr_members_self]
        by_cases hr : x ∈ s.rooms
        · rw [if_pos hr, Finset.mem_erase]
          simp only [hcc, ne_eq, not_false_iff, true_and]
          exact h.consist c' hc' x
        · rw [if_neg hr]
          exact h.consist c' hc' x
      · rw [rcfr_members_other s c r x hx]
        exact h.consist c' hc' x
  · intro x
    by_cases hx : x = r
    · subst hx
      rw [rcfr_members_self]
      by_cases hr : x ∈ s.rooms
      · rw [if_pos hr]
        exact le_trans (Finset.card_erase_le) (h.card_le x)
      · rw [if_neg hr]; exact h.card_le x
    · rw [rcfr_members_other s c r x hx]; exact h.card_le x
  · intro hm x hx
    by_cases hxr : x = r
    · subst hxr
      have := (rcfr_rooms_self s c x).mp hx
      rw [rcfr_members_self, if_pos this.1]
      exact this.2
    · rw [rcfr_members_other s c r x hxr]
      exact h.occupied hm x ((rcfr_rooms_other s c r x hxr).mp hx)
  · intro x hx
    exact h.valid x (rcfr_rooms_mono s c r x hx)

lemma subscribe_invalid (m : Nat) (s : SState) (c r e : String)
    (hv : (ValidateRoomName r).1 = false) :
    SubscribeToRoom m s c r e = (s, some (ValidateRoomName r).2) := by
  unfold SubscribeToRoom
  rw [if_pos hv]

lemma subscribe_noclient (m : Nat) (s : SState) (c r e : String)
    (hv : (ValidateRoomName r).1 = true) (hc : c ∉ s.clients) :
    SubscribeToRoom m s c r e = (s, some "客户端不存在") := by
  simp [SubscribeToRoom, hv, hc]

lemma subscribe_full_old (m : Nat) (s : SState) (c r e : String)
    (hv : (ValidateRoomName r).1 = true) (hc : c ∈ s.clients) (hr : r ∈ s.rooms)
    (hcard : m ≤ (s.members r).card) (hmem : c ∉ s.members r) :
    SubscribeToRoom m s c r e = (s, some (roomFullMsg m)) := by
  simp [SubscribeToRoom, hv, hc, hr, hcard, hmem]

lemma subscribe_full_new (s : SState) (c r e : String)
    (hv : (ValidateRoomName r).1 = true) (hc : c ∈ s.clients) (hr : r ∉ s.rooms) :
    SubscribeToRoom 0 s c r e =
      ({ s with rooms := insert r s.rooms,
                members := Function.update s.members r ∅ }, some (roomFullMsg 0)) := by
  simp [SubscribeToRoom, hv, hc, hr]

lemma subscribe_success_old (m : Nat) (s : SState) (c r e : String)
    (hv : (ValidateRoomName r).1 = true) (hc : c ∈ s.clients) (hr : r ∈ s.rooms)
    (hok : ¬(m ≤ (s.members r).card ∧ c ∉ s.members r)) :
    SubscribeToRoom m s c r e =
      ({ s with
          members := Function.update s.members r (insert c (s.members r))
          crooms := Function.update s.crooms c (insert r (s.crooms c))
          events := Function.update s.events c
            (if e ≠ "" then insert e (s.events c)
             else insert "signal:all" (s.events c)) }, none) := by
  simp [SubscribeToRoom, hv, hc, hr, hok]

lemma subscribe_success_new (m : Nat) (s : SState) (c r e : String)
    (hv : (ValidateRoomName r).1 = true) (hc : c ∈ s.clients) (hr : r ∉ s.rooms)
    (hm : 1 ≤ m) :
    SubscribeToRoom m s c r e =
      ({ s with
          rooms := insert r s.rooms
          members := Function.update s.members r (insert c ∅)
          crooms := Function.update s.crooms c (insert r (s.crooms c))
          events := Function.update s.events c
            (if e ≠ "" then insert e (s.events c)
             else insert "signal:all" (s.events c)) }, none) := by
  have hm0 : ¬(m ≤ 0) := by omega
  simp [SubscribeToRoom, hv, hc, hr, hm0, Function.update_idem]

lemma inv_add (m : Nat) (s : SState) (c u : String)
    (h : RegInv m s) (hc : c ∉ s.clients) : RegInv m (AddClient s c u) := by
  constructor
  · intro x d hd
    exact Finset.mem_insert_of_mem (h.mem_sub x hd)
  · exact h.dead
  · intro c' hc' x
    rcases Finset.mem_insert.mp hc' with hcc | hcc
    · subst hcc
      have hL : x ∉ (AddClient s c' u).crooms c' := by
        simp [AddClient, Function.update_same]
      have hR : c' ∉ (AddClient s c' u).members x := by
        intro hmem
        exact hc (h.mem_sub x hmem)
      exact iff_of_false hL hR
    · by_cases hne : c' = c
      · subst hne
        exact absurd hcc hc
      · have hcr : (AddClient s c u).crooms c' = s.crooms c' := by
          simp [AddClient, Function.update_apply, hne]
        rw [hcr]
        exact h.consist c' hcc x
  · exact h.card_le
  · exact h.occupied
  · exact h.valid

lemma inv_join (m : Nat) (s : SState) (c r e : String) (h : RegInv m s) :
    RegInv m (SubscribeToRoom m s c r e).1 := by
  by_cases hv : (ValidateRoomName r).1 = false
  · rw [subscribe_invalid m s c r e hv]
    exact h
  · rw [Bool.not_eq_false] at hv
    by_cases hc : c ∈ s.clients
    swap
    · rw [subscribe_noclient m s c r e hv hc]
      exact h
    by_cases hr : r ∈ s.rooms
    · by_cases hok : m ≤ (s.members r).card ∧ c ∉ s.members r
      · rw [subscribe_full_old m s c r e hv hc hr hok.1 hok.2]
        exact h
      · rw [subscribe_success_old m s c r e hv hc hr hok]
        constructor
        · intro x d hd
          dsimp at hd ⊢
          rw [Function.update_apply] at hd
          by_cases hx : x = r
          · rw [if_pos hx] at hd
            rcases Finset.mem_insert.mp hd with hdc | hdm
            · subst hdc; exact hc
            · exact h.mem_sub r hdm
          · rw [if_neg hx] at hd
            exact h.mem_sub x hd
        · intro x hx
          dsimp at hx ⊢
          have hxr : x ≠ r := fun hEq => hx (hEq ▸ hr)
          rw [Function.update_apply, if_neg hxr]
          exact h.dead x hx
        · intro c' hc' x
          dsimp at hc' ⊢
          rw [Function.update_apply, Function.update_apply]
          by_cases hcc : c' = c
          · subst hcc
            rw [if_pos rfl]
            by_cases hx : x = r
            · subst hx
              rw [if_pos rfl]
              simp [Finset.mem_insert]
            · rw [if_neg hx, Finset.mem_insert]
              simp only [hx, false_or]
              exact h.consist c' hc' x
          · rw [if_neg hcc]
            by_cases hx : x = r
            · subst hx
              rw [if_pos rfl, Finset.mem_insert]
              simp only [hcc, false_or]
              exact h.consist c' hc' x
            · rw [if_neg hx]
              exact h.consist c' hc' x
        · intro x
          dsimp
          rw [Function.update_apply]
          by_cases hx : x = r
          · rw [if_pos hx]
            subst hx
            rcases Decidable.not_and_iff_or_not.mp hok with hlt | hin
            · calc (insert c (s.members x)).card ≤ (s.members x).card + 1 :=
                    Finset.card_insert_le c (s.members x)
                _ ≤ m := by omega
            · rw [Finset.card_insert_of_mem (Decidable.not_not.mp hin)]
              exact h.card_le x
          · rw [if_neg hx]
            exact h.card_le x
        · intro hm x hx
          dsimp at hx ⊢
          rw [Function.update_apply]
          by_cases hxr : x = r
          · rw [if_pos hxr]
            exact Finset.insert_nonempty c _
          · rw [if_neg hxr]
            exact h.occupied hm x hx
        · intro x hx
          exact h.valid x hx
    · -- the room is created by this join
      by_cases hm : 1 ≤ m
      · rw [subscribe_success_new m s c r e hv hc hr hm]
        constructor
        · intro x d hd
          dsimp at hd ⊢
          rw [Function.update_apply] at hd
          by_cases hx : x = r
          · rw [if_pos hx] at hd
            rw [Finset.mem_singleton.mp hd]
            exact hc
          · rw [if_neg hx] at hd
            exact h.mem_sub x hd
        · intro x hx
          dsimp at hx ⊢
          rw [Finset.mem_insert] at hx
          push_neg at hx
          rw [Function.update_apply, if_neg hx.1]
          exact h.dead x hx.2
        · intro c' hc' x
          dsimp at hc' ⊢
          rw [Function.update_apply, Function.update_apply]
          by_cases hcc : c' = c
          · subst hcc
            rw [if_pos rfl]
            by_cases hx : x = r
            · subst hx
              rw [if_pos rfl]
              simp [Finset.mem_insert]
            · rw [if_neg hx, Finset.mem_insert]
              simp only [hx, false_or]
              exact h.consist c' hc' x
          · rw [if_neg hcc]
            by_cases hx : x = r
            · subst hx
              rw [if_pos rfl]
              have hL : x ∉ s.crooms c' := by
                intro hmem
                have := (h.consist c' hc' x).mp hmem
                rw [h.dead x hr] at this
                exact absurd this (Finset.not_mem_empty c')
              have hR : c' ∉ insert c (∅ : Finset String) := by
                simp [hcc]
              exact iff_of_false hL hR
            · rw [if_neg hx]
              exact h.consist c' hc' x
        · intro x
          dsimp
          rw [Function.update_apply]
          by_cases hx : x = r
          · rw [if_pos hx]
            simpa using hm
          · rw [if_neg hx]
            exact h.card_le x
        · intro hm' x hx
          dsimp at hx ⊢
          rw [Function.update_apply]
          by_cases hxr : x = r
          · rw [if_pos hxr]
            exact Finset.singleton_nonempty c
          · rw [if_neg hxr]
            rcases Finset.mem_insert.mp hx with hEq | hmem
            · exact absurd hEq hxr
            · exact h.occupied hm' x hmem
        · intro x hx
          dsimp at hx ⊢
          rcases Finset.mem_insert.mp hx with hEq | hmem
          · subst hEq; exact hv
          · exact h.valid x hmem
      · have hm0 : m = 0 := by omega
        subst hm0
        rw [subscribe_full_new s c r e hv hc hr]
        constructor
        · intro x d hd
          dsimp at hd ⊢
          rw [Function.update_apply] at hd
          by_cases hx : x = r
          · rw [if_pos hx] at hd
            exact absurd hd (Finset.not_mem_empty d)
          · rw [if_neg hx] at hd
            exact h.mem_sub x hd
        · intro x hx
          dsimp at hx ⊢
          rw [Finset.mem_insert] at hx
          push_neg at hx
          rw [Function.update_apply, if_neg hx.1]
          exact h.dead x hx.2
        · intro c' hc' x
          dsimp at hc' ⊢
          rw [Function.update_apply]
          by_cases hx : x = r
          · subst hx
            rw [if_pos rfl]
            have hL : x ∉ s.crooms c' := by
              intro hmem
              have := (h.consist c' hc' x).mp hmem
              rw [h.dead x hr] at this
              exact absurd this (Finset.not_mem_empty c')
            exact iff_of_false hL (Finset.not_mem_empty c')
          · rw [if_neg hx]
            exact h.consist c' hc' x
        · intro x
          dsimp
          rw [Function.update_apply]
          by_cases hx : x = r
          · rw [if_pos hx]; simp
          · rw [if_neg hx]
            exact h.card_le x
        · intro hm' _ _
          exact absurd hm' (by omega)
        · intro x hx
          dsimp at hx ⊢
          rcases Finset.mem_insert.mp hx with hEq | hmem
          · subst hEq; exact hv
          · exact h.valid x hmem

lemma inv_leave (m : Nat) (s : SState) (c r e : String) (h : RegInv m s) :
    RegInv m (UnsubscribeFromRoom s c r e).1 := by
  unfold UnsubscribeFromRoom
  by_cases hc : c ∉ s.clients
  · rw [if_pos hc]
    exact h
  · rw [if_neg hc]
    by_cases he : e ≠ "" ∧ e ≠ "signal:all"
    · rw [if_pos he]
      exact ⟨h.mem_sub, h.dead, h.consist, h.card_le, h.occupied, h.valid⟩
    · rw [if_neg he]
      exact inv_rcfr m s c r h

lemma inv_evict (m : Nat) (s : SState) (c : String) (h : RegInv m s) :
    RegInv m (RemoveClient s c) := by
  by_cases hc : c ∈ s.clients
  · obtain ⟨h1, h2, h3, h4, h5, h6, h7⟩ := removeClient_spec s c hc h.dead
    constructor
    · intro x d hd
      rw [h6 x] at hd
      rw [h1, Finset.mem_erase]
      by_cases hcr : x ∈ s.crooms c
      · rw [if_pos hcr, Finset.mem_erase] at hd
        exact ⟨hd.1, h.mem_sub x hd.2⟩
      · rw [if_neg hcr] at hd
        have hcm : c ∉ s.members x := fun hmem => hcr ((h.consist c hc x).mpr hmem)
        exact ⟨fun hEq => hcm (hEq ▸ hd), h.mem_sub x hd⟩
    · intro x hx
      rw [h6 x]
      rw [h7 x] at hx
      push_neg at hx
      by_cases hxr : x ∈ s.rooms
      · obtain ⟨hcr, hne⟩ := hx hxr
        rw [if_pos hcr]
        rwa [Finset.not_nonempty_iff_eq_empty] at hne
      · rw [h.dead x hxr]
        split <;> simp [Finset.erase_empty]
    · intro c' hc' x
      rw [h1, Finset.mem_erase] at hc'
      rw [(h3 c' hc'.1).1, h6 x]
      by_cases hcr : x ∈ s.crooms c
      · rw [if_pos hcr, Finset.mem_erase]
        simp only [hc'.1, ne_eq, not_false_iff, true_and]
        exact h.consist c' hc'.2 x
      · rw [if_neg hcr]
        exact h.consist c' hc'.2 x
    · intro x
      rw [h6 x]
      by_cases hcr : x ∈ s.crooms c
      · rw [if_pos hcr]
        exact le_trans Finset.card_erase_le (h.card_le x)
      · rw [if_neg hcr]
        exact h.card_le x
    · intro hm x hx
      rw [h7 x] at hx
      rw [h6 x]
      by_cases hcr : x ∈ s.crooms c
      · rw [if_pos hcr]
        exact hx.2 hcr
      · rw [if_neg hcr]
        exact h.occupied hm x hx.1
    · intro x hx
      rw [h7 x] at hx
      exact h.valid x hx.1
  · unfold RemoveClient
    rw [if_neg hc]
    exact h

lemma reg_inv_init (m : Nat) : RegInv m initState := by
  constructor <;> simp [initState]

lemma reachable_inv {m : Nat} {s : SState} (h : Reachable m s) : RegInv m s := by
  induction h with
  | init => exact reg_inv_init m
  | add _ hc ih => exact inv_add _ _ _ _ ih hc
  | join _ ih => exact inv_join _ _ _ _ _ ih
  | leave _ ih => exact inv_leave _ _ _ _ _ ih
  | evict _ ih => exact inv_evict _ _ _ ih

lemma shouldReceive_iff (evs : Finset String) (e : String) :
    shouldReceive evs e = true ↔
      (((e = "" ∨ e = "signal:all") ∧ "signal:all" ∈ evs) ∨
       ((e ≠ "" ∧ e ≠ "signal:all") ∧ (e ∈ evs ∨ "signal:all" ∈ evs))) := by
  unfold shouldReceive
  by_cases h : e = "" ∨ e = "signal:all"
  · rw [if_pos h]
    simp only [decide_eq_true_eq]
    constructor
    · intro hin
      exact Or.inl ⟨h, hin⟩
    · rintro (⟨-, hin⟩ | ⟨hne, -⟩)
      · exact hin
      · rcases h with h | h
        · exact absurd h hne.1
        · exact absurd h hne.2
  · rw [if_neg h]
    push_neg at h
    simp only [Bool.or_eq_true, decide_eq_true_eq]
    constructor
    · intro hin
      exact Or.inr ⟨h, hin⟩
    · rintro (⟨he, -⟩ | ⟨-, hin⟩)
      · rcases he with he | he
        · exact absurd he h.1
        · exact absurd he h.2
      · exact hin

lemma publish_fold (c r e : String) (s : SState) (l : List String) (acc : List String)
    (h : ∀ d ∈ l, d ∈ s.clients) :
    l.foldl (publishStep c r e) (s, acc) =
      (s, acc ++ l.filter (fun d => decide (d ≠ c) && shouldReceive (s.events d) e)) := by
  induction l generalizing acc with
  | nil => simp
  | cons d0 rest ih =>
    have hd0 : d0 ∈ s.clients := h d0 (List.mem_cons_self d0 rest)
    have hrest : ∀ d ∈ rest, d ∈ s.clients := fun d hd => h d (List.mem_cons_of_mem d0 hd)
    rw [List.foldl_cons]
    by_cases hc0 : d0 = c
    · have hstep : publishStep c r e (s, acc) d0 = (s, acc) := by
        simp [publishStep, hc0]
      rw [hstep, ih acc hrest]
      simp [List.filter_cons, hc0]
    · by_cases hrecv : shouldReceive (s.events d0) e = true
      · have hstep : publishStep c r e (s, acc) d0 = (s, acc ++ [d0]) := by
          simp [publishStep, hc0, hd0, hrecv]
        rw [hstep, ih (acc ++ [d0]) hrest]
        simp [List.filter_cons, hc0, hrecv]
      · have hstep : publishStep c r e (s, acc) d0 = (s, acc) := by
          simp [publishStep, hc0, hd0, hrecv]
        rw [hstep, ih acc hrest]
        simp [List.filter_cons, hc0, hrecv]

lemma publish_recipients (m : Nat) (s : SState) (c r e : String) (hinv : RegInv m s)
    (hc : c ∈ s.clients) (hcr : r ∈ s.crooms c) :
    PublishToRoom s c r e =
      (s, (sortedKeys (s.members r)).filter
            (fun d => decide (d ≠ c) && shouldReceive (s.events d) e), none) := by
  have hmem : c ∈ s.members r := (hinv.consist c hc r).mp hcr
  have hr : r ∈ s.rooms := by
    by_contra hr
    rw [hinv.dead r hr] at hmem
    exact absurd hmem (Finset.not_mem_empty c)
  unfold PublishToRoom
  rw [if_neg (not_not_intro hc), if_neg (not_not_intro hcr), if_neg (not_not_intro hr)]
  dsimp only
  rw [publish_fold c r e s _ []
    (fun d hd => hinv.mem_sub r (mem_sortedKeys.mp hd))]
  simp

lemma publish_mem_recipients (m : Nat) (s : SState) (c r e d : String) (hinv : RegInv m s)
    (hc : c ∈ s.clients) (hcr : r ∈ s.crooms c) :
    d ∈ (PublishToRoom s c r e).2.1 ↔
      d ∈ s.members r ∧ d ≠ c ∧ shouldReceive (s.events d) e = true := by
  rw [publish_recipients m s c r e hinv hc hcr]
  simp only [List.mem_filter, mem_sortedKeys, Bool.and_eq_true, decide_eq_true_eq]

lemma publish_not_recipient (m : Nat) (s : SState) (hinv : RegInv m s)
    (sender r e d : String) (hd : ¬ shouldReceive (s.events d) e = true) :
    d ∉ (PublishToRoom s sender r e).2.1 := by
  by_cases hs : sender ∈ s.clients
  · by_cases hcr : r ∈ s.crooms sender
    · rw [publish_recipients m s sender r e hinv hs hcr]
      simp [List.mem_filter, hd]
    · unfold PublishToRoom
      rw [if_neg (not_not_intro hs), if_pos hcr]
      simp
  · unfold PublishToRoom
    rw [if_pos hs]
    simp

/-- C1: after every sequence of registrations, Join, Leave and Evict
operations starting from the empty state, each registered connection's
`Rooms` set equals exactly the set of room names whose member set contains
that connection's id. -/
theorem claim_C1_membership_consistency (m : Nat) (s : SState)
    (h : Reachable m s) :
    ∀ c ∈ s.clients, ∀ r, r ∈ s.crooms c ↔ (r ∈ s.rooms ∧ c ∈ s.members r) := by
  have hinv := reachable_inv h
  intro c hc r
  constructor
  · intro hcr
    have hmem := (hinv.consist c hc r).mp hcr
    refine ⟨?_, hmem⟩
    by_contra hr
    rw [hinv.dead r hr] at hmem
    exact absurd hmem (Finset.not_mem_empty c)
  · rintro ⟨-, hmem⟩
    exact (hinv.consist c hc r).mpr hmem

/-- Witness for C1 at a concrete reachable state with two clients in one
room. -/
theorem claim_C1_membership_consistency_witness :
    Reachable 2 stateC ∧ "c1" ∈ stateC.clients ∧
      ("ab" ∈ stateC.crooms "c1" ↔
        ("ab" ∈ stateC.rooms ∧ "c1" ∈ stateC.members "ab")) := by
  have hA : Reachable 2 stateA :=
    Reachable.add (Reachable.add Reachable.init (by decide)) (by decide)
  have hB : Reachable 2 stateB := Reachable.join hA
  have hC : Reachable 2 stateC := Reachable.join hB
  exact ⟨hC, by decide,
    claim_C1_membership_consistency 2 stateC hC "c1" (by decide) "ab"⟩

/-- C7: room-name validation accepts exactly the strings of 2 to 12 code
points whose characters all lie in the allowed class (Han, ASCII letters,
digits, space, underscore, hyphen); shorter names fail with the too-short
reason, longer ones with the too-long reason, and in-range names holding a
disallowed character with the character reason; "ab" and a two-character Han
name pass, while "a", a 13-character name and "room!" fail with their
respective reasons. -/
theorem claim_C7_room_name_validation (name : String) :
    ((ValidateRoomName name).1 = true ↔
      (2 ≤ name.length ∧ name.length ≤ 12 ∧
        ∀ ch ∈ name.toList, isAllowedRoomChar ch = true)) ∧
    (name.length < 2 →
      ValidateRoomName name = (false, "房间名太短啦，至少两个字符")) ∧
    (12 < name.length →
      ValidateRoomName name = (false, "房间名最多 12 个字符")) ∧
    (2 ≤ name.length → name.length ≤ 12 →
      ¬(∀ ch ∈ name.toList, isAllowedRoomChar ch = true) →
      ValidateRoomName name =
        (false, "房间名只能包含中文、字母、数字、空格、下划线和中划线")) ∧
    (ValidateRoomName "ab").1 = true ∧
    ValidateRoomName "a" = (false, "房间名太短啦，至少两个字符") ∧
    ValidateRoomName "roomroomroom1" = (false, "房间名最多 12 个字符") ∧
    ValidateRoomName "room!" =
      (false, "房间名只能包含中文、字母、数字、空格、下划线和中划线") ∧
    (ValidateRoomName "房间").1 = true := by
  refine ⟨?_, ?_, ?_, ?_, by decide, by decide, by decide, by decide, by decide⟩
  · constructor
    · intro hacc
      unfold ValidateRoomName at hacc
      by_cases h1 : name.length < 2
      · rw [if_pos h1] at hacc
        exact absurd hacc (by simp)
      · rw [if_neg h1] at hacc
        by_cases h2 : name.length > 12
        · rw [if_pos h2] at hacc
          exact absurd hacc (by simp)
        · rw [if_neg h2] at hacc
          by_cases h3 : name.toList.all isAllowedRoomChar
          · exact ⟨by omega, by omega, List.all_eq_true.mp h3⟩
          · rw [if_neg h3] at hacc
            exact absurd hacc (by simp)
    · rintro ⟨hl, hu, hch⟩
      unfold ValidateRoomName
      rw [if_neg (by omega), if_neg (by omega),
        if_pos (List.all_eq_true.mpr hch)]
  · intro h1
    unfold ValidateRoomName
    rw [if_pos h1]
  · intro h2
    unfold ValidateRoomName
    rw [if_neg (by omega), if_pos (by omega)]
  · intro h1 h2 h3
    unfold ValidateRoomName
    rw [if_neg (by omega), if_neg (by omega),
      if_neg (fun hall => h3 (List.all_eq_true.mp hall))]

/-- C2: a successful publish changes no state, and a member other than the
sender is delivered the message exactly when the event filter admits it: an
empty or sentinel event name requires the sentinel subscription, a concrete
event name requires that event or the sentinel; the sender is never among the
recipients. -/
theorem claim_C2_delivery (m : Nat) (s : SState) (c r e : String)
    (h : Reachable m s) (hc : c ∈ s.clients) (hcr : r ∈ s.crooms c) :
    (PublishToRoom s c r e).1 = s ∧
    (PublishToRoom s c r e).2.2 = none ∧
    c ∉ (PublishToRoom s c r e).2.1 ∧
    (∀ d, d ∈ (PublishToRoom s c r e).2.1 ↔
      (d ∈ s.members r ∧ d ≠ c ∧
        (((e = "" ∨ e = "signal:all") ∧ "signal:all" ∈ s.events d) ∨
         ((e ≠ "" ∧ e ≠ "signal:all") ∧
           (e ∈ s.events d ∨ "signal:all" ∈ s.events d))))) := by
  have hinv := reachable_inv h
  have hrec := publish_recipients m s c r e hinv hc hcr
  have hmem : ∀ d, d ∈ (PublishToRoom s c r e).2.1 ↔
      d ∈ s.members r ∧ d ≠ c ∧ shouldReceive (s.events d) e = true :=
    fun d => publish_mem_recipients m s c r e d hinv hc hcr
  refine ⟨by rw [hrec], by rw [hrec], ?_, ?_⟩
  · intro hcmem
    exact ((hmem c).mp hcmem).2.1 rfl
  · intro d
    rw [hmem d, shouldReceive_iff]

/-- Witness for C2: in the concrete two-client room, the publisher's message
with a concrete event reaches the other member, which subscribes to the
sentinel. -/
theorem claim_C2_delivery_witness :
    ("c2" ∈ (PublishToRoom stateC "c1" "ab" "evt").2.1) ∧
    ("c1" ∉ (PublishToRoom stateC "c1" "ab" "evt").2.1) := by
  have hC : Reachable 2 stateC :=
    Reachable.join (Reachable.join
      (Reachable.add (Reachable.add Reachable.init (by decide)) (by decide)))
  have h := claim_C2_delivery 2 stateC "c1" "ab" "evt" hC (by decide) (by decide)
  exact ⟨(h.2.2.2 "c2").mpr (by decide), h.2.2.1⟩

/-- C3: for a reachable state and a room at capacity, a registered connection
not in the member set is refused with the room-full error and the call leaves
the state exactly as it was, a connection already in the member set is not
refused, and no room's member count ever exceeds the capacity. -/
theorem claim_C3_capacity (m : Nat) (s : SState) (r c e : String)
    (h : Reachable m s) (hr : r ∈ s.rooms) (hcard : (s.members r).card = m)
    (hc : c ∈ s.clients) :
    (c ∉ s.members r → SubscribeToRoom m s c r e = (s, some (roomFullMsg m))) ∧
    (c ∈ s.members r → (SubscribeToRoom m s c r e).2 = none) ∧
    (∀ x, (s.members x).card ≤ m) := by
  have hinv := reachable_inv h
  have hv := hinv.valid r hr
  refine ⟨?_, ?_, hinv.card_le⟩
  · intro hnm
    exact subscribe_full_old m s c r e hv hc hr (le_of_eq hcard.symm) hnm
  · intro hm2
    rw [subscribe_success_old m s c r e hv hc hr (fun hk => hk.2 hm2)]

/-- Witness for C3: room "ab" is at capacity 1 with client c1, so the
registered client c2 is refused with the room-full error and nothing
changes. -/
theorem claim_C3_capacity_witness :
    (stateF.members "ab").card = 1 ∧ "c2" ∉ stateF.members "ab" ∧
      SubscribeToRoom 1 stateF "c2" "ab" "" = (stateF, some (roomFullMsg 1)) := by
  have hF : Reachable 1 stateF :=
    Reachable.join
      (Reachable.add (Reachable.add Reachable.init (by decide)) (by decide))
  exact ⟨by decide, by decide,
    (claim_C3_capacity 1 stateF "ab" "c2" "" hF (by decide) (by decide)
      (by decide)).1 (by decide)⟩

/-- C5: for a registered member of an existing room, Leave with a specific
non-sentinel event removes exactly that one subscription and leaves all
membership state unchanged, while Leave with an empty or sentinel event
removes the membership on both sides, clears every non-sentinel subscription
of that connection, destroys the room exactly when its member set becomes
empty, and touches no other room or client. -/
theorem claim_C5_leave_granularity (s : SState) (c r e : String)
    (hc : c ∈ s.clients) (hr : r ∈ s.rooms) (hmem : c ∈ s.members r) :
    ((e ≠ "" ∧ e ≠ "signal:all") →
      UnsubscribeFromRoom s c r e =
        ({ s with events := Function.update s.events c ((s.events c).erase e) },
          none)) ∧
    ((e = "" ∨ e = "signal:all") →
      (UnsubscribeFromRoom s c r e).2 = none ∧
      (UnsubscribeFromRoom s c r e).1.clients = s.clients ∧
      (UnsubscribeFromRoom s c r e).1.members r = (s.members r).erase c ∧
      (UnsubscribeFromRoom s c r e).1.crooms c = (s.crooms c).erase r ∧
      (UnsubscribeFromRoom s c r e).1.events c =
        (s.events c).filter (fun x => x = "signal:all") ∧
      (r ∈ (UnsubscribeFromRoom s c r e).1.rooms ↔
        ((s.members r).erase c).Nonempty) ∧
      (∀ x, x ≠ r →
        (UnsubscribeFromRoom s c r e).1.members x = s.members x ∧
        (x ∈ (UnsubscribeFromRoom s c r e).1.rooms ↔ x ∈ s.rooms)) ∧
      (∀ c', c' ≠ c →
        (UnsubscribeFromRoom s c r e).1.crooms c' = s.crooms c' ∧
        (UnsubscribeFromRoom s c r e).1.events c' = s.events c')) := by
  constructor
  · intro he
    unfold UnsubscribeFromRoom
    rw [if_neg (not_not_intro hc), if_pos he]
  · intro he
    have he2 : ¬(e ≠ "" ∧ e ≠ "signal:all") := by
      rcases he with he | he
      · exact fun hk => hk.1 he
      · exact fun hk => hk.2 he
    have hres : UnsubscribeFromRoom s c r e = (removeClientFromRoom s c r, none) := by
      unfold UnsubscribeFromRoom
      rw [if_neg (not_not_intro hc), if_neg he2]
    rw [hres]
    refine ⟨rfl, rcfr_clients s c r, ?_, ?_, ?_, ?_, ?_, ?_⟩
    · rw [rcfr_members_self, if_pos hr]
    · rw [rcfr_crooms_reg s c r hc, if_pos hr]
    · rw [rcfr_events_reg s c r hc, if_pos hr]
    · rw [rcfr_rooms_self]
      simp [hr]
    · intro x hx
      exact ⟨rcfr_members_other s c r x hx, rcfr_rooms_other s c r x hx⟩
    · intro c' hc'
      exact ⟨rcfr_crooms_other s c r c' hc', rcfr_events_other s c r c' hc'⟩

/-- Witness for C5 at the concrete two-member room: the fine-grained
unsubscribe for event "evt" succeeds while full leave with the sentinel
removes the membership. -/
theorem claim_C5_leave_granularity_witness :
    UnsubscribeFromRoom stateC "c1" "ab" "evt" =
      ({ stateC with
          events := Function.update stateC.events "c1"
            ((stateC.events "c1").erase "evt") }, none) ∧
    (UnsubscribeFromRoom stateC "c1" "ab" "signal:all").1.members "ab" =
      (stateC.members "ab").erase "c1" := by
  have h1 := claim_C5_leave_granularity stateC "c1" "ab" "evt"
    (by decide) (by decide) (by decide)
  have h2 := claim_C5_leave_granularity stateC "c1" "ab" "signal:all"
    (by decide) (by decide) (by decide)
  exact ⟨h1.1 (by decide), (h2.2 (Or.inr rfl)).2.2.1⟩

/-- C10: with a positive capacity, Leave by a registered connection always
succeeds, and when the named room does not exist or the connection is not one
of its members the room table (both the room set and every member set) is
left unchanged; Leave by an unregistered connection id fails with the
unknown-client error and changes nothing. -/
theorem claim_C10_leave_error_tolerance (m : Nat) (s : SState) (c r e : String)
    (h : Reachable m s) (hm : 1 ≤ m) :
    (c ∈ s.clients →
      (UnsubscribeFromRoom s c r e).2 = none ∧
      ((r ∉ s.rooms ∨ c ∉ s.members r) →
        (UnsubscribeFromRoom s c r e).1.rooms = s.rooms ∧
        (UnsubscribeFromRoom s c r e).1.members = s.members)) ∧
    (c ∉ s.clients → UnsubscribeFromRoom s c r e = (s, some "客户端不存在")) := by
  have hinv := reachable_inv h
  constructor
  · intro hc
    by_cases he : e ≠ "" ∧ e ≠ "signal:all"
    · have hres : UnsubscribeFromRoom s c r e =
          ({ s with events := Function.update s.events c ((s.events c).erase e) },
            none) := by
        unfold UnsubscribeFromRoom
        rw [if_neg (not_not_intro hc), if_pos he]
      rw [hres]
      exact ⟨rfl, fun _ => ⟨rfl, rfl⟩⟩
    · have hres : UnsubscribeFromRoom s c r e = (removeClientFromRoom s c r, none) := by
        unfold UnsubscribeFromRoom
        rw [if_neg (not_not_intro hc), if_neg he]
      rw [hres]
      refine ⟨rfl, ?_⟩
      intro hcase
      by_cases hnr : r ∈ s.rooms
      · have hnm : c ∉ s.members r := by
          rcases hcase with hcase | hcase
          · exact absurd hnr hcase
          · exact hcase
        have hkeep : (s.members r).erase c = s.members r :=
          Finset.erase_eq_of_not_mem hnm
        have hne : ¬((s.members r).erase c = ∅) := by
          rw [hkeep]
          exact Finset.nonempty_iff_ne_empty.mp (hinv.occupied hm r hnr)
        constructor
        · simp [removeClientFromRoom, hnr, hne, hc]
        · funext x
          by_cases hx : x = r
          · subst hx
            rw [rcfr_members_self, if_pos hnr, hkeep]
          · exact rcfr_members_other s c r x hx
      · unfold removeClientFromRoom
        rw [if_pos hnr]
        exact ⟨rfl, rfl⟩
  · intro hnc
    unfold UnsubscribeFromRoom
    rw [if_pos hnc]

/-- Witness for C10: leaving the nonexistent room "cd" succeeds for the
registered client c1 and leaves the room table untouched, and an unknown id
is refused. -/
theorem claim_C10_leave_error_tolerance_witness :
    (UnsubscribeFromRoom stateB "c1" "cd" "").2 = none ∧
    (UnsubscribeFromRoom stateB "c1" "cd" "").1.rooms = stateB.rooms ∧
    UnsubscribeFromRoom stateB "zz" "ab" "" = (stateB, some "客户端不存在") := by
  have hB : Reachable 2 stateB :=
    Reachable.join
      (Reachable.add (Reachable.add Reachable.init (by decide)) (by decide))
  have h1 := claim_C10_leave_error_tolerance 2 stateB "c1" "cd" "" hB (by decide)
  have h2 := claim_C10_leave_error_tolerance 2 stateB "zz" "ab" "" hB (by decide)
  refine ⟨(h1.1 (by decide)).1, ((h1.1 (by decide)).2 (Or.inl (by decide))).1,
    h2.2 (by decide)⟩

lemma subscribe_clients (m : Nat) (s : SState) (c r e : String) :
    (SubscribeToRoom m s c r e).1.clients = s.clients := by
  by_cases hv : (ValidateRoomName r).1 = false
  · rw [subscribe_invalid m s c r e hv]
  · rw [Bool.not_eq_false] at hv
    by_cases hc : c ∈ s.clients
    · by_cases hr : r ∈ s.rooms
      · by_cases hfull : m ≤ (s.members r).card ∧ c ∉ s.members r
        · rw [subscribe_full_old m s c r e hv hc hr hfull.1 hfull.2]
        · rw [subscribe_success_old m s c r e hv hc hr hfull]
      · by_cases hm : 1 ≤ m
        · rw [subscribe_success_new m s c r e hv hc hr hm]
        · have hm0 : m = 0 := by omega
          subst hm0
          rw [subscribe_full_new s c r e hv hc hr]
    · rw [subscribe_noclient m s c r e hv hc]

lemma subscribe_success_event (m : Nat) (s : SState) (c r e : String)
    (hc : c ∈ s.clients) (he : e ≠ "")
    (hok : (SubscribeToRoom m s c r e).2 = none) :
    (SubscribeToRoom m s c r e).1.events c =
      insert e (s.events c) := by
  by_cases hv : (ValidateRoomName r).1 = false
  · rw [subscribe_invalid m s c r e hv] at hok
    exact absurd hok (by simp)
  · rw [Bool.not_eq_false] at hv
    by_cases hr : r ∈ s.rooms
    · by_cases hfull : m ≤ (s.members r).card ∧ c ∉ s.members r
      · rw [subscribe_full_old m s c r e hv hc hr hfull.1 hfull.2] at hok
        exact absurd hok (by simp)
      · rw [subscribe_success_old m s c r e hv hc hr hfull]
        dsimp only
        rw [Function.update_same, if_pos he]
    · by_cases hm : 1 ≤ m
      · rw [subscribe_success_new m s c r e hv hc hr hm]
        dsimp only
        rw [Function.update_same, if_pos he]
      · have hm0 : m = 0 := by omega
        subst hm0
        rw [subscribe_full_new s c r e hv hc hr] at hok
        exact absurd hok (by simp)

/-- C9: event subscriptions are one per-connection set shared across rooms:
a subscription added while joining room r1 makes publishes naming that event
deliverable to the connection in every room it is a member of; and removing
the subscription through any room r3 erases that event name from the one
shared set, after which (absent the sentinel subscription) no publish naming
that event in any room reaches the connection. -/
theorem claim_C9_subscriptions_global (m : Nat) (s : SState) (c r1 e : String)
    (h : Reachable m s) (hc : c ∈ s.clients)
    (he1 : e ≠ "") (he2 : e ≠ "signal:all")
    (hok : (SubscribeToRoom m s c r1 e).2 = none) :
    e ∈ (SubscribeToRoom m s c r1 e).1.events c ∧
    (∀ sender r2, sender ∈ (SubscribeToRoom m s c r1 e).1.clients →
      r2 ∈ (SubscribeToRoom m s c r1 e).1.crooms sender → sender ≠ c →
      c ∈ (SubscribeToRoom m s c r1 e).1.members r2 →
      c ∈ (PublishToRoom (SubscribeToRoom m s c r1 e).1 sender r2 e).2.1) ∧
    (∀ r3,
      (UnsubscribeFromRoom (SubscribeToRoom m s c r1 e).1 c r3 e).1.events c =
        ((SubscribeToRoom m s c r1 e).1.events c).erase e ∧
      ("signal:all" ∉ (SubscribeToRoom m s c r1 e).1.events c →
        ∀ sender r2, c ∉ (PublishToRoom
          (UnsubscribeFromRoom (SubscribeToRoom m s c r1 e).1 c r3 e).1
          sender r2 e).2.1)) := by
  have hinv1 : RegInv m (SubscribeToRoom m s c r1 e).1 :=
    reachable_inv (Reachable.join h)
  have hc1 : c ∈ (SubscribeToRoom m s c r1 e).1.clients := by
    rw [subscribe_clients]
    exact hc
  have hev : (SubscribeToRoom m s c r1 e).1.events c =
      insert e (s.events c) := subscribe_success_event m s c r1 e hc he1 hok
  have hin : e ∈ (SubscribeToRoom m s c r1 e).1.events c := by
    rw [hev]
    exact Finset.mem_insert_self e _
  refine ⟨hin, ?_, ?_⟩
  · intro sender r2 hsend hcr2 hne hcm
    refine (publish_mem_recipients m _ sender r2 e c hinv1 hsend hcr2).mpr
      ⟨hcm, fun hEq => hne hEq.symm, ?_⟩
    exact (shouldReceive_iff _ e).mpr (Or.inr ⟨⟨he1, he2⟩, Or.inl hin⟩)
  · intro r3
    have hres : UnsubscribeFromRoom (SubscribeToRoom m s c r1 e).1 c r3 e =
        ({ (SubscribeToRoom m s c r1 e).1 with
            events := Function.update (SubscribeToRoom m s c r1 e).1.events c
              (((SubscribeToRoom m s c r1 e).1.events c).erase e) }, none) := by
      unfold UnsubscribeFromRoom
      rw [if_neg (not_not_intro hc1), if_pos ⟨he1, he2⟩]
    have hev2 : (UnsubscribeFromRoom (SubscribeToRoom m s c r1 e).1 c r3 e).1.events c =
        ((SubscribeToRoom m s c r1 e).1.events c).erase e := by
      rw [hres]
      exact Function.update_same c _ _
    refine ⟨hev2, ?_⟩
    intro hsig sender r2
    have hinv2 : RegInv m (UnsubscribeFromRoom (SubscribeToRoom m s c r1 e).1 c r3 e).1 :=
      reachable_inv (Reachable.leave (Reachable.join h))
    refine publish_not_recipient m _ hinv2 sender r2 e c ?_
    rw [hev2, shouldReceive_iff]
    rintro (⟨hor, -⟩ | ⟨-, hin2 | hin2⟩)
    · rcases hor with hor | hor
      · exact he1 hor
      · exact he2 hor
    · exact absurd hin2 (Finset.not_mem_erase e _)
    · exact hsig (Finset.mem_of_mem_erase hin2)

/-- Witness for C9: c1 subscribes to "evt" while joining "ab"; a publish of
"evt" by c2 in "ab" reaches c1, and after unsubscribing "evt" through the
unrelated room name "cd" no publish of "evt" reaches c1 anywhere. -/
theorem claim_C9_subscriptions_global_witness :
    "evt" ∈ stateC.events "c1" ∧
    "c1" ∈ (PublishToRoom stateC "c2" "ab" "evt").2.1 ∧
    (UnsubscribeFromRoom stateC "c1" "cd" "evt").1.events "c1" =
      (stateC.events "c1").erase "evt" ∧
    "c1" ∉ (PublishToRoom
      (UnsubscribeFromRoom stateC "c1" "cd" "evt").1 "c2" "ab" "evt").2.1 := by
  have hB : Reachable 2 stateB :=
    Reachable.join
      (Reachable.add (Reachable.add Reachable.init (by decide)) (by decide))
  have h := claim_C9_subscriptions_global 2 stateB "c1" "ab" "evt" hB
    (by decide) (by decide) (by decide) (by decide)
  exact ⟨h.1, h.2.1 "c2" "ab" (by decide) (by decide) (by decide) (by decide),
    (h.2.2 "cd").1, (h.2.2 "cd").2 (by decide) "c2" "ab"⟩

/-- Counterexample to C4 as stated: evicting c1, the sole member of room
"ab", passes through an observable intermediate state (the second of the four
trace states, right after the registry deletion) in which room "ab" still
lists c1 as a member while c1 is already absent from the registry — the
claimed ordering (room-table removal before or together with registry
removal) is the reverse of what the code does. -/
theorem claim_C4_evict_order_counterexample :
    (removeClientTrace stateF "c1").length = 4 ∧
    "c1" ∈ ((removeClientTrace stateF "c1").getD 1 stateF).members "ab" ∧
    "c1" ∉ ((removeClientTrace stateF "c1").getD 1 stateF).clients := by
  refine ⟨by decide, by decide, by decide⟩

/-- C4 amended: Evict deletes the id from the registry first, then closes the
connection, snapshots the room set and removes the id from each room
(destroying rooms that become empty), and finally nils out the client's own
fields; dangling membership is observable mid-eviction, but once the call
completes the evicted id is in no room's member set and the registry
invariants hold again. -/
theorem claim_C4_evict_order_amended (m : Nat) (s : SState) (c : String)
    (h : Reachable m s) (hc : c ∈ s.clients) :
    ((removeClientTrace s c).getD 1 s).clients = s.clients.erase c ∧
    ((removeClientTrace s c).getD 1 s).members = s.members ∧
    ((removeClientTrace s c).getD 1 s).rooms = s.rooms ∧
    (removeClientTrace s c).getLast? = some (RemoveClient s c) ∧
    (RemoveClient s c).clients = s.clients.erase c ∧
    (∀ x, c ∉ (RemoveClient s c).members x) ∧
    RegInv m (RemoveClient s c) := by
  have hinv := reachable_inv h
  obtain ⟨h1, h2, h3, h4, h5, h6, h7⟩ := removeClient_spec s c hc hinv.dead
  have htrace : removeClientTrace s c =
      s :: { s with clients := s.clients.erase c } ::
        (rcfrStates c { s with clients := s.clients.erase c }
          (sortedKeys (({ s with clients := s.clients.erase c } : SState).crooms c)) ++
         [cleanupClientResources { s with clients := s.clients.erase c } c]) := by
    unfold removeClientTrace cleanupClientResources
    rw [if_pos hc]
  have hrc : RemoveClient s c =
      cleanupClientResources { s with clients := s.clients.erase c } c := by
    unfold RemoveClient
    rw [if_pos hc]
  refine ⟨by rw [htrace]; rfl, by rw [htrace]; rfl, by rw [htrace]; rfl, ?_, h1, ?_,
    inv_evict m s c hinv⟩
  · rw [htrace, hrc]
    rw [← List.cons_append, ← List.cons_append, List.getLast?_concat]
  · intro x
    rw [h6 x]
    by_cases hcr : x ∈ s.crooms c
    · rw [if_pos hcr]
      exact Finset.not_mem_erase c _
    · rw [if_neg hcr]
      exact fun hmem => hcr ((hinv.consist c hc x).mpr hmem)

/-- Witness for C4's amended statement at the one-member room. -/
theorem claim_C4_evict_order_amended_witness :
    ((removeClientTrace stateF "c1").getD 1 stateF).clients =
      stateF.clients.erase "c1" ∧
    (removeClientTrace stateF "c1").getLast? = some (RemoveClient stateF "c1") ∧
    "c1" ∉ (RemoveClient stateF "c1").members "ab" := by
  have hF : Reachable 1 stateF :=
    Reachable.join
      (Reachable.add (Reachable.add Reachable.init (by decide)) (by decide))
  have h := claim_C4_evict_order_amended 1 stateF "c1" hF (by decide)
  exact ⟨h.1, h.2.2.2.1, h.2.2.2.2.2.1 "ab"⟩

lemma processMessage_no_panic (m : Nat) (s : SState) (c : String) (f : Frame)
    (h : ¬(f.type = "publish" ∧ f.channel ≠ "" ∧ f.data = some Json.null)) :
    ∃ p, processMessage m s c f = .ok p := by
  unfold processMessage
  by_cases ht1 : f.type = "subscribe"
  · rw [if_pos ht1]
    exact ⟨_, rfl⟩
  · rw [if_neg ht1]
    by_cases ht2 : f.type = "unsubscribe"
    · rw [if_pos ht2]
      exact ⟨_, rfl⟩
    · rw [if_neg ht2]
      by_cases ht3 : f.type = "publish"
      · rw [if_pos ht3]
        unfold handlePublish
        by_cases hch : f.channel = ""
        · rw [if_pos hch]
          exact ⟨_, rfl⟩
        · rw [if_neg hch]
          dsimp only
          cases hd : f.data with
          | none => exact ⟨_, rfl⟩
          | some v =>
            cases v with
            | null => exact absurd ⟨ht3, hch, hd⟩ h
            | bool b => exact ⟨_, rfl⟩
            | num n => exact ⟨_, rfl⟩
            | str t => exact ⟨_, rfl⟩
            | arr xs => exact ⟨_, rfl⟩
            | obj fl =>
              dsimp only
              cases hres : (PublishToRoom s c f.channel
                  (if f.event = "" then "signal:all" else f.event)).2.2 with
              | some emsg => exact ⟨_, rfl⟩
              | none => exact ⟨_, rfl⟩
      · rw [if_neg ht3]
        exact ⟨_, rfl⟩

lemma processMessage_subscribe (m : Nat) (s : SState) (c : String) (f : Frame)
    (ht : f.type = "subscribe") :
    processMessage m s c f = .ok (handleSubscribe m s c f) := by
  unfold processMessage
  rw [if_pos ht]

lemma processMessage_unsubscribe (m : Nat) (s : SState) (c : String) (f : Frame)
    (ht : f.type = "unsubscribe") :
    processMessage m s c f = .ok (handleUnsubscribe s c f) := by
  unfold processMessage
  rw [if_neg (by simp [ht]), if_pos ht]

lemma processMessage_publish (m : Nat) (s : SState) (c : String) (f : Frame)
    (ht : f.type = "publish") :
    processMessage m s c f = handlePublish s c f := by
  unfold processMessage
  rw [if_neg (by simp [ht]), if_neg (by simp [ht]), if_pos ht]

lemma processMessage_other (m : Nat) (s : SState) (c : String) (f : Frame)
    (h1 : f.type ≠ "subscribe") (h2 : f.type ≠ "unsubscribe")
    (h3 : f.type ≠ "publish") :
    processMessage m s c f =
      .ok (s, [(c, OutMsg.errorMsg 400 ("不支持的消息类型: " ++ f.type))]) := by
  unfold processMessage
  rw [if_neg h1, if_neg h2, if_neg h3]

lemma handleInbound_ok (m : Nat) (s : SState) (c : String) (f : Frame)
    (p : SState × List (String × OutMsg))
    (hp : processMessage m s c f = .ok p) :
    handleInbound m s c (some f) = (p.1, p.2, true) := by
  obtain ⟨p1, p2⟩ := p
  unfold handleInbound
  dsimp only
  rw [hp]

/-- Counterexample to C6 as stated: a frame the transport decodes but
`ReadJSON` cannot parse produces no error reply and terminates the read loop
(the session ends), and a well-formed subscribe frame queued after it is
never processed — contradicting the claim that every protocol error is
answered with an error reply and never ends the session. -/
theorem claim_C6_error_replies_counterexample :
    handleInbound 50 stateA "c1" none = (stateA, [], false) ∧
    (runSession 50 "c1" stateA
      [none, some (Frame.mk "subscribe" "ab" "" none)]).2 = [] := by
  exact ⟨rfl, rfl⟩

/-- C6 amended: a decoded frame never ends the session except a publish whose
payload is the JSON literal null (a run-time panic, recovered by the session
goroutine, which then stops reading); each recognized protocol error —
unsupported type, missing channel, invalid room name, room full, missing
payload, non-object payload, publish without membership, vanished room — is
answered by exactly one error-typed reply to the offending connection with
the session continuing; an undecodable frame, by contrast, breaks the read
loop with no reply. -/
theorem claim_C6_error_replies_amended (m : Nat) (s : SState) (c : String)
    (f : Frame) :
    (handleInbound m s c none = (s, [], false)) ∧
    (¬(f.type = "publish" ∧ f.channel ≠ "" ∧ f.data = some Json.null) →
      (handleInbound m s c (some f)).2.2 = true) ∧
    ((f.type = "publish" ∧ f.channel ≠ "" ∧ f.data = some Json.null) →
      handleInbound m s c (some f) = (s, [], false)) ∧
    (f.type ≠ "subscribe" → f.type ≠ "unsubscribe" → f.type ≠ "publish" →
      handleInbound m s c (some f) =
        (s, [(c, OutMsg.errorMsg 400 ("不支持的消息类型: " ++ f.type))], true)) ∧
    ((f.type = "subscribe" ∨ f.type = "unsubscribe" ∨ f.type = "publish") →
      f.channel = "" →
      handleInbound m s c (some f) =
        (s, [(c, OutMsg.errorMsg 400 "缺少频道名称")], true)) ∧
    (f.type = "subscribe" → f.channel ≠ "" →
      (ValidateRoomName f.channel).1 = false →
      handleInbound m s c (some f) =
        (s, [(c, OutMsg.errorMsg 400 (ValidateRoomName f.channel).2)], true)) ∧
    (f.type = "subscribe" → f.channel ≠ "" →
      (ValidateRoomName f.channel).1 = true → c ∈ s.clients →
      f.channel ∈ s.rooms → m ≤ (s.members f.channel).card →
      c ∉ s.members f.channel →
      handleInbound m s c (some f) =
        (s, [(c, OutMsg.errorMsg 400 (roomFullMsg m))], true)) ∧
    (f.type = "publish" → f.channel ≠ "" → f.data = none →
      handleInbound m s c (some f) =
        (s, [(c, OutMsg.errorMsg 400 "缺少消息数据")], true)) ∧
    (f.type = "publish" → f.channel ≠ "" → f.data ≠ none →
      f.data ≠ some Json.null → (∀ fl, f.data ≠ some (Json.obj fl)) →
      handleInbound m s c (some f) =
        (s, [(c, OutMsg.errorMsg 400 "消息数据格式错误")], true)) ∧
    (∀ fl, f.type = "publish" → f.channel ≠ "" →
      f.data = some (Json.obj fl) → c ∈ s.clients →
      f.channel ∉ s.crooms c →
      handleInbound m s c (some f) =
        (s, [(c, OutMsg.errorMsg 400 ("客户端未订阅房间: " ++ f.channel))], true)) ∧
    (∀ fl, f.type = "publish" → f.channel ≠ "" →
      f.data = some (Json.obj fl) → c ∈ s.clients →
      f.channel ∈ s.crooms c → f.channel ∉ s.rooms →
      handleInbound m s c (some f) =
        (s, [(c, OutMsg.errorMsg 400 ("房间不存在: " ++ f.channel))], true)) := by
  refine ⟨rfl, ?_, ?_, ?_, ?_, ?_, ?_, ?_, ?_, ?_, ?_⟩
  · intro h
    obtain ⟨p, hp⟩ := processMessage_no_panic m s c f h
    rw [handleInbound_ok m s c f p hp]
  · rintro ⟨ht, hch, hd⟩
    unfold handleInbound
    dsimp only
    rw [processMessage_publish m s c f ht]
    unfold handlePublish
    rw [if_neg hch]
    dsimp only
    rw [hd]
  · intro h1 h2 h3
    rw [handleInbound_ok m s c f _ (processMessage_other m s c f h1 h2 h3)]
  · rintro (ht | ht | ht) hch
    · rw [handleInbound_ok m s c f _ (processMessage_subscribe m s c f ht)]
      unfold handleSubscribe
      rw [if_pos hch]
    · rw [handleInbound_ok m s c f _ (processMessage_unsubscribe m s c f ht)]
      unfold handleUnsubscribe
      rw [if_pos hch]
    · unfold handleInbound
      dsimp only
      rw [processMessage_publish m s c f ht]
      unfold handlePublish
      rw [if_pos hch]
  · intro ht hch hv
    rw [handleInbound_ok m s c f _ (processMessage_subscribe m s c f ht)]
    unfold handleSubscribe
    rw [if_neg hch, subscribe_invalid m s c f.channel f.event hv]
  · intro ht hch hv hc hr hcard hnm
    rw [handleInbound_ok m s c f _ (processMessage_subscribe m s c f ht)]
    unfold handleSubscribe
    rw [if_neg hch, subscribe_full_old m s c f.channel f.event hv hc hr hcard hnm]
  · intro ht hch hd
    unfold handleInbound
    dsimp only
    rw [processMessage_publish m s c f ht]
    unfold handlePublish
    rw [if_neg hch]
    dsimp only
    rw [hd]
  · intro ht hch hd0 hdn hdo
    unfold handleInbound
    dsimp only
    rw [processMessage_publish m s c f ht]
    unfold handlePublish
    rw [if_neg hch]
    dsimp only
    cases hd : f.data with
    | none => exact absurd hd hd0
    | some v =>
      cases v with
      | null => exact absurd hd hdn
      | bool b => rfl
      | num n => rfl
      | str t => rfl
      | arr xs => rfl
      | obj fl => exact absurd hd (hdo fl)
  · intro fl ht hch hd hc hcr
    unfold handleInbound
    dsimp only
    rw [processMessage_publish m s c f ht]
    unfold handlePublish
    rw [if_neg hch]
    dsimp only
    rw [hd]
    dsimp only
    have hpub : PublishToRoom s c f.channel
        (if f.event = "" then "signal:all" else f.event) =
        (s, [], some ("客户端未订阅房间: " ++ f.channel)) := by
      unfold PublishToRoom
      rw [if_neg (not_not_intro hc), if_pos hcr]
    rw [hpub]
  · intro fl ht hch hd hc hcr hnr
    unfold handleInbound
    dsimp only
    rw [processMessage_publish m s c f ht]
    unfold handlePublish
    rw [if_neg hch]
    dsimp only
    rw [hd]
    dsimp only
    have hpub : PublishToRoom s c f.channel
        (if f.event = "" then "signal:all" else f.event) =
        (s, [], some ("房间不存在: " ++ f.channel)) := by
      unfold PublishToRoom
      rw [if_neg (not_not_intro hc), if_neg (not_not_intro hcr), if_pos hnr]
    rw [hpub]

/-- Witness for C6's amended statement: an unsupported frame type gets a
structured error reply with the session continuing, while an undecodable
frame ends the session with no reply. -/
theorem claim_C6_error_replies_amended_witness :
    handleInbound 50 stateA "c1" (some (Frame.mk "bogus" "ab" "" none)) =
      (stateA, [("c1", OutMsg.errorMsg 400 ("不支持的消息类型: " ++ "bogus"))],
        true) ∧
    handleInbound 50 stateA "c1" none = (stateA, [], false) := by
  have h := claim_C6_error_replies_amended 50 stateA "c1"
    (Frame.mk "bogus" "ab" "" none)
  exact ⟨h.2.2.2.1 (by decide) (by decide) (by decide), h.1⟩

/-- C8 (code bug): a publish whose data field is the JSON literal null passes
the nil check (the raw bytes are not Go-nil), json.Unmarshal into the map
succeeds yielding a nil map, and the from-field injection then assigns into
that nil map — a run-time panic that ends the session with no reply, where
the claim requires an error reply and a continuing session.  For contrast, an
object payload without "from" is dispatched with the session subject
injected. -/
theorem claim_C8_null_payload_panic :
    processMessage 50 stateB "c2"
      (Frame.mk "publish" "ab" "" (some Json.null)) = .error () ∧
    handleInbound 50 stateB "c2"
      (some (Frame.mk "publish" "ab" "" (some Json.null))) =
        (stateB, [], false) ∧
    handleInbound 50 stateC "c1" (some (Frame.mk "publish" "ab" "evt"
        (some (Json.obj [("type", Json.str "discover")])))) =
      (stateC, [("c2", OutMsg.message "ab" "evt"
        (Json.obj [("type", Json.str "discover"), ("from", Json.str "u1")]))],
        true) := by
  exact ⟨rfl, rfl, rfl⟩
